import Mathlib

/-
  Verification of the candidate-curation pipeline of the `ai-report`
  repository against its natural-language specification.

  The Python sources are shallowly embedded below:
  * `src/utils/history_manager.py`  → namespace `History`
  * `src/cleaner.py` (deduplicate)  → namespace `Cleaner`
  * `src/curator.py`                → namespace `Curator`
  * `src/llm_client.py`             → namespace `LLM`
  * `src/main.py`                   → namespace `Main`

  Modelling conventions, applied uniformly:
  * Python `str.lower` / `str.strip` / `str.upper` are the structural
    `PyStr.lower` / `PyStr.strip` / `PyStr.upper` defined below
    (ASCII case folding; all strings relevant to the claims are within
    that fragment).
  * Python `sub in s` (substring test) is `substrIn s sub`.
  * Python `set` objects whose only observable use is membership are
    modelled as `List String` with cons for `set.add`; at every insertion
    site the inserted element is provably absent or the insertion is
    membership-equivalent, so membership agrees with the Python set.
  * Network I/O (an LLM "oracle" round trip) is modelled as a function
    `Nat → HttpOutcome α` from the index of the round trip to its outcome;
    a Python `raise` escaping a function is an `Except.error`.
-/

/-
  Python string primitives, modelled structurally on the character list of
  the string (the core `String` helpers use byte-position recursion that
  the kernel cannot evaluate).  Case folding is ASCII (`Char.toLower` /
  `Char.toUpper`) and the whitespace set is `Char.isWhitespace`; the
  strings relevant to the claims are within that fragment.
-/
namespace PyStr

/-- Python `str.lower()` (ASCII fragment). -/
def lower (s : String) : String :=
  ⟨s.data.map Char.toLower⟩

/-- Python `str.upper()` (ASCII fragment). -/
def upper (s : String) : String :=
  ⟨s.data.map Char.toUpper⟩

/-- Python `str.strip()`: drop whitespace from both ends. -/
def strip (s : String) : String :=
  ⟨((s.data.dropWhile Char.isWhitespace).reverse.dropWhile Char.isWhitespace).reverse⟩

/-- Whether `needle` occurs at the head of `hay`. -/
def listLeads : List Char → List Char → Bool
  | [], _ => true
  | _ :: _, [] => false
  | a :: as, b :: bs => a == b && listLeads as bs

/-- Whether `needle` occurs anywhere in `hay`. -/
def listOccurs (needle : List Char) : List Char → Bool
  | [] => needle.isEmpty
  | c :: rest => listLeads needle (c :: rest) || listOccurs needle rest

/-- Python `str.startswith`. -/
def startsWith (s pre : String) : Bool :=
  listLeads pre.data s.data

/-- Splitting on whitespace runs, dropping empty words; `acc` holds the
characters of the current word in reverse. -/
def wordsAux (acc : List Char) : List Char → List (List Char)
  | [] => if acc.isEmpty then [] else [acc.reverse]
  | c :: cs =>
    if c.isWhitespace then
      if acc.isEmpty then wordsAux [] cs else acc.reverse :: wordsAux [] cs
    else wordsAux (c :: acc) cs

end PyStr

/-- Python substring containment `sub in hay` (`"" in hay` is `True`). -/
def substrIn (hay sub : String) : Bool :=
  PyStr.listOccurs sub.data hay.data

/-- Python `str.split()` with no argument: split on whitespace runs and
drop empty pieces. -/
def pySplitWs (s : String) : List String :=
  (PyStr.wordsAux [] s.data).map (fun w => ⟨w⟩)

namespace History

/-- One element of the permanent ledger `data/history.json`
(`HistoryManager._history`). -/
structure HistoryEntry where
  name : String
  url : String
  source : String
  date : String
deriving Repr, DecidableEq

/-- In-memory state of `HistoryManager`: the ledger plus the two lookup
sets built from it. -/
structure HistoryState where
  history : List HistoryEntry
  nameSet : List String
  urlSet : List String
deriving Repr, DecidableEq

/-- `HistoryManager._normalize`: lowercase and strip. -/
def normalize (name : String) : String :=
  PyStr.strip (PyStr.lower name)

/-- `HistoryManager._normalize_url`: lowercase, strip, drop the query
string (`url.split("?")[0]`), drop trailing slashes (`rstrip("/")`). -/
def normalizeUrl (url : String) : String :=
  let u := PyStr.strip (PyStr.lower url)
  let u : String := ⟨u.data.takeWhile (fun c => c != '?')⟩
  ⟨(u.data.reverse.dropWhile (fun c => c == '/')).reverse⟩

/-- `HistoryManager.is_duplicate`.  The URL is only normalized when `url`
is truthy (`self._normalize_url(url) if url else ""`). -/
def isDuplicate (st : HistoryState) (name url : String) : Bool :=
  let normalizedName := normalize name
  let normalizedUrl := if url == "" then "" else normalizeUrl url
  if normalizedName != "" && st.nameSet.contains normalizedName then true
  else if normalizedUrl != "" && st.urlSet.contains normalizedUrl then true
  else false

/-- `HistoryManager.add`.  The `date` default (`datetime.now`) is an
external input and is passed explicitly.  A duplicate is a no-op;
otherwise the raw entry is appended to the ledger and each non-empty
normalized component is added to its lookup set. -/
def add (st : HistoryState) (name url source date : String) : HistoryState :=
  let normalizedName := normalize name
  let normalizedUrl := normalizeUrl url
  if isDuplicate st name url then st
  else
    { history := st.history ++ [{ name := name, url := url, source := source, date := date }]
      nameSet := if normalizedName != "" then normalizedName :: st.nameSet else st.nameSet
      urlSet := if normalizedUrl != "" then normalizedUrl :: st.urlSet else st.urlSet }

/-- `HistoryManager._load` after the ledger has been parsed from disk:
the lookup sets are rebuilt from the ledger, one entry at a time. -/
def loadState (ledger : List HistoryEntry) : HistoryState :=
  ledger.foldl
    (fun st it =>
      let name := normalize it.name
      let url := normalizeUrl it.url
      { st with
        nameSet := if name != "" then name :: st.nameSet else st.nameSet
        urlSet := if url != "" then url :: st.urlSet else st.urlSet })
    { history := ledger, nameSet := [], urlSet := [] }

/-- The `"total"` component of `HistoryManager.get_stats`:
`len(self._history)`. -/
def getStatsTotal (st : HistoryState) : Nat :=
  st.history.length

/-- The `"by_source"` component of `HistoryManager.get_stats`: the counting
loop over the ledger produces, for each source, the number of ledger
entries carrying it. -/
def getStatsBySource (st : HistoryState) (source : String) : Nat :=
  (st.history.filter (fun it => it.source == source)).length

/-- `HistoryManager.save_recommendations` without the disk write: bulk
`add` with dict-get defaults (`date` defaulting handled as in `add`). -/
def saveRecommendations (st : HistoryState) (items : List (String × String × String)) (date : String) : HistoryState :=
  items.foldl (fun s it => add s it.1 it.2.1 it.2.2 date) st

end History

/-- A candidate record as produced by `Curator._to_candidate_dict`; raw
feed records fed to the session deduplicators carry the same
name/url/tagline/description/source fields. -/
structure Candidate where
  name : String
  url : String
  tagline : String
  description : String
  source : String
deriving Repr, DecidableEq

namespace Cleaner

/-- The dedup key column of `cleaner.deduplicate`:
`name.lower().strip() + "|" + url.lower().strip()`. -/
def dedupKey (c : Candidate) : String :=
  PyStr.strip (PyStr.lower c.name) ++ "|" ++ PyStr.strip (PyStr.lower c.url)

/-- Recursion underlying pandas `drop_duplicates(subset=["key"])`: keep the
first occurrence of each key, in input order. -/
def dedupAux (seen : List String) : List Candidate → List Candidate
  | [] => []
  | x :: xs =>
    if dedupKey x ∈ seen then dedupAux seen xs
    else x :: dedupAux (dedupKey x :: seen) xs

/-- `cleaner.deduplicate`: first-occurrence dedup on the key column
(an empty frame yields `[]`, which the recursion also returns). -/
def deduplicate (items : List Candidate) : List Candidate :=
  dedupAux [] items

end Cleaner

namespace Curator

/-- The identity key of `curate._dedupe` and of `_recent_seen`:
`(item.get("url") or item.get("name") or "").strip().lower()`. -/
def sessionKey (c : Candidate) : String :=
  PyStr.lower (PyStr.strip (if c.url != "" then c.url else c.name))

/-- Loop body of the local helper `_dedupe` inside `Curator.curate`:
skip an item when its key is empty, already seen in this run, or
(when `applyRecent`) in the 30-day recent-seen set. -/
def sessionDedupeAux (recentSeen : List String) (applyRecent : Bool) (seen : List String) :
    List Candidate → List Candidate
  | [] => []
  | x :: xs =>
    let key := sessionKey x
    if key == "" || seen.contains key || (applyRecent && recentSeen.contains key) then
      sessionDedupeAux recentSeen applyRecent seen xs
    else
      x :: sessionDedupeAux recentSeen applyRecent (key :: seen) xs

/-- The local helper `_dedupe` inside `Curator.curate`, with the
`recent_seen` set captured from the enclosing run. -/
def sessionDedupe (recentSeen : List String) (applyRecent : Bool) (items : List Candidate) : List Candidate :=
  sessionDedupeAux recentSeen applyRecent [] items

/-- `Curator.block_keywords` (domain blocklist). -/
def blockKeywords : List String := [
  "sdk", "api", "cli", "boilerplate", "template", "starter kit", "starter-kit",
  "library", "framework", "database", "backend", "frontend", "deploy",
  "kubernetes", "k8s", "docker", "container", "serverless", "lambda",
  "agent core", "agentcore", "open source", "open-source", "self-hosted",
  "devops", "devtool", "developer tool", "infrastructure", "terraform",
  "npm", "pip", "cargo", "maven", "gradle", "package manager",
  "python library", "node module", "react component", "vue component",
  "microservice", "orchestration", "ci/cd", "pipeline",
  "mcp", "server", "python", "fastmcp", "client", "repo",
  "network", "community", "social", "connect", "dating", "meet",
  "club", "forum", "social media", "social network", "art network",
  "home design", "interior", "decor", "furniture", "reimagine home",
  "wallpaper", "room design", "house", "garden", "kitchen design",
  "smart home", "home automation", "iot", "appliance",
  "habit", "habitz", "habit tracker", "goal tracker", "streak",
  "journaling", "diary", "mood tracker", "mood",
  "gratitude", "reflection", "self-care", "mindfulness",
  "daily routine", "morning routine", "routine",
  "resume", "cv builder", "resume builder",
  "baby", "parenting", "infant", "toddler", "pregnancy", "mother", "父母",
  "health", "fitness", "workout", "exercise", "sleep", "meditation", "wellness",
  "caffeine", "calorie", "diet", "weight", "nutrition", "yoga", "breathing",
  "girlfriend", "boyfriend", "romance", "love", "match", "relationship",
  "nsfw", "adult",
  "game", "gaming", "puzzle", "arcade", "casino", "trivia", "quiz game",
  "tarot", "horoscope", "astrology", "fortune", "zodiac",
  "shopping", "fashion", "clothing", "beauty", "cosmetic", "skincare",
  "crypto", "bitcoin", "trading", "stock", "forex", "nft",
  "face swap", "protocol",
  "k12", "k-12", "tutor", "tutoring", "flashcard", "study",
  "food", "recipe", "cooking", "restaurant", "meal", "grocery",
  "pet", "dog", "cat", "travel", "vacation", "hotel", "flight",
  "weather", "calendar", "reminder", "alarm", "timer"]

/-- `Curator.generic_names`. -/
def genericNames : List String := [
  "translator", "3d viewer", "ai chat", "chatbot", "assistant",
  "converter", "downloader", "editor", "generator", "maker",
  "ai writer", "text to video", "video generator", "image generator"]

/-- `Curator.efficiency_stars` (giant allowlist). -/
def efficiencyStars : List String := [
  "notion", "raycast", "obsidian", "canva", "figma", "miro",
  "wps", "feishu", "飞书", "arc", "arc browser",
  "perplexity", "genspark", "anygen", "linear",
  "airtable", "coda", "clickup", "monday", "asana",
  "midjourney", "runway", "pika", "luma", "kling"]

/-- `Curator.devtools_blocklist`. -/
def devtoolsBlocklist : List String := [
  "deploy", "deployment", "backend", "devops", "infrastructure",
  " server", "hosting", "kubernetes", "docker", "container",
  "ci/cd", "monitoring", "observability",
  "serverless", " runtime", "capsule", "capsules",
  " sdk", " api ", "webhook", "endpoint", "rest api", "graphql",
  " mcp", "fastmcp",
  " ide ", "code editor", "debugger", "compiler", " terminal",
  " database", " sql", "nosql", "postgres", "mongodb", "redis",
  "open source", "open-source", "github repo", "npm package",
  "firmware", " hardware", "embedded", " iot", "raspberry",
  "agent builder", "agent platform", "agent framework",
  "app builder", "workflow builder", "automation builder",
  "low-code platform", "no-code platform"]

/-- `Curator.vendor_blocklist`. -/
def vendorBlocklist : List String := [
  "netlify", "vercel", "aws", "amazon web services",
  "azure", "google cloud", "gcp", "cloudflare",
  "supabase", "docker", "kubernetes", "gitlab",
  "heroku", "digitalocean", "linode", "fly.io", "railway",
  "render", "planetscale", "neon", "upstash"]

/-- `Curator.companion_blocklist`. -/
def companionBlocklist : List String := [
  "companion", "waifu", "live2d", "virtual friend",
  "girlfriend", "boyfriend", "dating", "roleplay",
  "anime", "character ai", "soulmate", "vtuber",
  "virtual pet", "ai friend", "ai girlfriend", "ai boyfriend",
  "emotional support", "chat companion", "ai companion",
  "facetime", "video call"]

/-- `Curator.vertical_blocklist`. -/
def verticalBlocklist : List String := [
  "trading", "trader", "crypto", "bitcoin", "stock", "forex",
  "investment", "portfolio", "hedge fund", "quantitative",
  "medical", "diagnosis", "healthcare", "clinical", "patient",
  "hospital", "doctor", "pharmacy", "drug", "symptom",
  "legal advice", "lawyer", "attorney", "litigation", "lawsuit",
  "real estate", "property", "mortgage", "rental",
  "insurance", "agriculture", "farming", "mining"]

/-- `Curator.infra_blocklist`. -/
def infraBlocklist : List String := [
  "chatgpt", "claude", "gemini", "gpt-4", "gpt-5",
  "openai", "anthropic", "google ai", "meta ai",
  "azure", "aws", "gcp", "lambda"]

/-- `Curator._is_giant`: giant/blocklist detector with the efficiency-star
allowlist taking precedence. -/
def isGiant (name description : String) : Bool :=
  let haystack := PyStr.lower (name ++ " " ++ description)
  if efficiencyStars.any (fun star => substrIn haystack star) then false
  else if companionBlocklist.any (fun c => substrIn haystack c) then true
  else if verticalBlocklist.any (fun v => substrIn haystack v) then true
  else if vendorBlocklist.any (fun v => substrIn haystack v) then true
  else if devtoolsBlocklist.any (fun d => substrIn haystack d) then true
  else if infraBlocklist.any (fun i => substrIn haystack i) then true
  else false

/-- The `generic_words` set local to `Curator._is_generic_name`. -/
def genericWords : List String :=
  ["ai", "tool", "app", "bot", "assistant", "helper", "generator", "maker", "viewer", "editor"]

/-- `Curator._is_generic_name`. -/
def isGenericName (name : String) : Bool :=
  let lowered := PyStr.strip (PyStr.lower name)
  if genericNames.contains lowered then true
  else if genericNames.any (fun g => lowered == g || substrIn (" " ++ lowered ++ " ") (" " ++ g)) then true
  else
    let words := pySplitWs lowered
    if words.length ≤ 3 && words.all (fun w => genericWords.contains w) then true
    else false

/-- The `dev_killers` set local to `Curator._is_dev_tool`. -/
def devKillers : List String := [
  "deploy", "deployment", "backend", "devops", "infrastructure",
  "serverless", "hosting", "ci/cd", "cicd",
  "kubernetes", "k8s", "docker", "container", "terraform",
  "aws ", "azure ", "gcp ", "lambda", "monitoring", "observability",
  " sdk", " api", " cli ", "boilerplate", "starter kit",
  " library", " framework", " database", " npm", "pip install",
  "python library", "node module", "open source", "open-source",
  " git ", "github", "gitlab", "repository", "debugger",
  " terminal", " shell ", "code editor",
  "agent builder", "agent platform", "agent framework", "agent core",
  "app builder", "code generator", "code generation", " mcp",
  "low-code platform", "no-code platform", "developer tool"]

/-- The `high_risk` set local to `Curator._is_dev_tool`. -/
def highRisk : List String := ["builder", "no-code", "low-code"]

/-- The `user_scenarios` set local to `Curator._is_dev_tool`. -/
def userScenarios : List String :=
  ["document", "design", "presentation", "meeting",
   "writing", "note", "collaboration", "team", "video", "image"]

/-- The `app_indicators` set local to `Curator._is_dev_tool`. -/
def appIndicators : List String :=
  ["app", "gui", "desktop", "web app", "chrome extension"]

/-- `Curator._is_dev_tool`. -/
def isDevTool (name tagline description : String) : Bool :=
  let haystack := PyStr.lower (name ++ " " ++ tagline ++ " " ++ description)
  if devKillers.any (fun k => substrIn haystack k) then true
  else if highRisk.any (fun r => substrIn haystack r)
          && !(userScenarios.any (fun s => substrIn haystack s)) then true
  else if substrIn haystack "github.com"
          && !(appIndicators.any (fun i => substrIn haystack i)) then true
  else false

/-- The `generic_phrases` list of `Scraper.calculate_quality_score`. -/
def genericPhrases : List String := [
  "text to video generator", "ai writer free", "ai writer", "text to video",
  "video generator", "image generator", "ai chatbot", "ai tool"]

/-- `Scraper.calculate_quality_score` (src/scraper.py): a generic-phrase
match subtracts 100 from an initial score of 0. -/
def calculateQualityScore (name tagline : String) : Int :=
  let text := PyStr.lower (name ++ " " ++ tagline)
  if genericPhrases.any (fun p => substrIn text p) then (0 : Int) - 100 else 0

/-- The per-candidate accept test of `Curator._prefilter_value`: the loop
`continue`s on the first failing check, so a candidate survives iff every
check passes.  The curator is modelled with a `HistoryManager` attached
(`main.py` always passes one), so the `self.history and ...` guard is the
duplicate test itself. -/
def prefilterValueKeeps (hist : History.HistoryState) (c : Candidate) : Bool :=
  let haystack := PyStr.lower (c.name ++ " " ++ c.tagline ++ " " ++ c.description)
  !(History.isDuplicate hist c.name c.url)
  && !(blockKeywords.any (fun k => substrIn haystack k))
  && !(isGiant c.name (c.tagline ++ " " ++ c.description))
  && !(isGenericName c.name)
  && !(isDevTool c.name c.tagline c.description)
  && !(calculateQualityScore c.name c.tagline ≤ (0 : Int) - 50)

/-- `Curator._prefilter_value`: append-if-no-check-fires, i.e. a stable
filter by `prefilterValueKeeps`. -/
def prefilterValue (hist : History.HistoryState) (candidates : List Candidate) : List Candidate :=
  candidates.filter (prefilterValueKeeps hist)

/-- The `source_pools` dict built in `Curator.curate`, with its seven
fixed keys. -/
structure SourcePools where
  productHunt : List Candidate
  toolify : List Candidate
  github : List Candidate
  hackerNews : List Candidate
  taaft : List Candidate
  futurepedia : List Candidate
  other : List Candidate
deriving Repr, DecidableEq

/-- Loop body of the grouping loop in `Curator.curate`: an item goes into
the pool named by its `source` field, or into `Other`. -/
def poolAdd (p : SourcePools) (c : Candidate) : SourcePools :=
  if c.source == "Product Hunt" then { p with productHunt := p.productHunt ++ [c] }
  else if c.source == "Toolify" then { p with toolify := p.toolify ++ [c] }
  else if c.source == "GitHub" then { p with github := p.github ++ [c] }
  else if c.source == "Hacker News" then { p with hackerNews := p.hackerNews ++ [c] }
  else if c.source == "TAAFT" then { p with taaft := p.taaft ++ [c] }
  else if c.source == "Futurepedia" then { p with futurepedia := p.futurepedia ++ [c] }
  else { p with other := p.other ++ [c] }

/-- The grouping of the filtered pool by source in `Curator.curate`. -/
def groupPools (items : List Candidate) : SourcePools :=
  items.foldl poolAdd ⟨[], [], [], [], [], [], []⟩

/-- One forced slot: the first element of a pool, or nothing when the pool
is empty (`if source_pools[...]: balanced_candidates.append(...[0])`). -/
def headSlot : List Candidate → List Candidate
  | [] => []
  | x :: _ => [x]

/-- Slots 1–5 of the force-slot-allocation block in `Curator.curate`:
Product Hunt, Toolify, TAAFT + Futurepedia combined, Hacker News, GitHub,
in that order.  (The `forced_sources` set recorded alongside is never read
afterwards.) -/
def forcedSlots (p : SourcePools) : List Candidate :=
  headSlot p.productHunt ++ headSlot p.toolify ++ headSlot (p.taaft ++ p.futurepedia)
    ++ headSlot p.hackerNews ++ headSlot p.github

/-- The inner loop of the Slot-6+ round-robin: append the first pool item
not already present in the batch (`if item not in balanced_candidates`). -/
def rrPick (balanced : List Candidate) (pool : List Candidate) : List Candidate :=
  match pool.find? (fun i => !(balanced.contains i)) with
  | some item => balanced ++ [item]
  | none => balanced

/-- The Slot-6+ round-robin of `Curator.curate`: one pass over the fixed
order TAAFT, Product Hunt, Toolify, Hacker News, stopping once the batch
reaches 8. -/
def roundRobin (balanced : List Candidate) (p : SourcePools) : List Candidate :=
  let b1 := rrPick balanced p.taaft
  if b1.length ≥ 8 then b1 else
  let b2 := rrPick b1 p.productHunt
  if b2.length ≥ 8 then b2 else
  let b3 := rrPick b2 p.toolify
  if b3.length ≥ 8 then b3 else
  rrPick b3 p.hackerNews

/-- `candidates_for_llm` in `Curator.curate`: forced slots, then the
round-robin pass, truncated to the batch cap of 6. -/
def balancedBatch (p : SourcePools) : List Candidate :=
  (roundRobin (forcedSlots p) p).take 6

end Curator

namespace LLM

/-- Whether a character is a CJK ideograph in the range used by the
Python regexes (`[一-龥]`). -/
def isChineseChar (c : Char) : Bool :=
  decide (19968 ≤ c.toNat) && decide (c.toNat ≤ 40869)

/-- `LLMClient._contains_chinese`. -/
def containsChinese (text : String) : Bool :=
  text.data.any isChineseChar

/-- Count of Chinese characters in a text
(`len(re.findall(r'[一-龥]', text))`). -/
def chineseCount (text : String) : Nat :=
  (text.data.filter isChineseChar).length

/-- The character class removed when counting effective characters in
`LLMClient._chinese_ratio` — whitespace plus listed ASCII punctuation.
The apostrophe (39), braces (123, 125) are written via `Char.ofNat`. -/
def pyPunct : List Char :=
  ['.', ',', '!', '?', ';', ':', '-', Char.ofNat 34, Char.ofNat 39,
   '(', ')', '[', ']', Char.ofNat 123, Char.ofNat 125]

/-- Effective (non-whitespace, non-punctuation) character count of
`LLMClient._chinese_ratio`. -/
def effectiveCount (text : String) : Nat :=
  (text.data.filter (fun c => !(c.isWhitespace || pyPunct.contains c))).length

/-- The comparison `_chinese_ratio(text) < num/den`, with the float
division modelled as an exact rational comparison (`ratio` is 0.0 when
there are no effective characters). -/
def chineseFracLt (text : String) (num den : Nat) : Bool :=
  let c := chineseCount text
  let e := effectiveCount text
  if e == 0 then decide (0 < num) else decide (c * den < e * num)

/-- The `garbage_phrases` list of `LLMClient._needs_rewrite`. -/
def garbagePhrases : List String := ["text to video generator", "ai writer free"]

/-- The `metadata_noise` list of `LLMClient._needs_rewrite`. -/
def metadataNoise : List String := [
  "1 day ago", "2 days ago", "3 days ago", "days ago", "hours ago",
  "source:", "updated:", "stars", "⭐", "created:", "discussion",
  "comments", "| link", "read more", "click here"]

/-- `LLMClient._needs_rewrite` (the summary quality gate). -/
def needsRewrite (text : String) : Bool :=
  if text == "" then true
  else
    let lowered := PyStr.lower text
    if garbagePhrases.any (fun p => substrIn lowered p) then true
    else if metadataNoise.any (fun n => substrIn lowered n) then true
    else if !(containsChinese text) then true
    else if chineseFracLt text 2 5 then true
    else false

/-- `LLMClient._postprocess_intro` (the degradation marker). -/
def postprocessIntro (text : String) : String :=
  if text == "" then "(自动翻译失败) 暂无中文介绍"
  else if !(containsChinese text) then "(自动翻译失败) " ++ text
  else if chineseFracLt text 3 10 then "(翻译不完整) " ++ text
  else text

/-- `LLMClient._is_invalid_output`. -/
def isInvalidOutput (text : String) : Bool :=
  if text == "" then true
  else substrIn (PyStr.lower text) "error: 无效数据"

/-- Outcome of one HTTP round trip against the oracle, as observed by
`LLMClient._request`: a 429 status, any other transport/parse failure
raised by `requests`, or a successfully delivered content payload. -/
inductive HttpOutcome (α : Type) where
  | rateLimited
  | failure
  | success (content : α)
deriving Repr

/-- An oracle behaviour: the outcome of the i-th HTTP round trip made by
the client during the call under analysis. -/
def Oracle (α : Type) : Type := Nat → HttpOutcome α

/-- Attempt loop of `LLMClient._request`: `attempts` counts down from
`max_retries`; `k` is the index of the next round trip.  A 429 and a
transport failure both consume an attempt and retry after a sleep; an
exhausted loop models `raise RuntimeError`, carrying the final round-trip
index in the error. -/
def requestLoop (o : Oracle α) : (k : Nat) → (attempts : Nat) → Except Nat (α × Nat)
  | k, 0 => .error k
  | k, attempts + 1 =>
    match o k with
    | .success c => .ok (c, k + 1)
    | .rateLimited => requestLoop o (k + 1) attempts
    | .failure => requestLoop o (k + 1) attempts

/-- `LLMClient._request`. -/
def request (o : Oracle α) (maxRetries k : Nat) : Except Nat (α × Nat) :=
  requestLoop o k maxRetries

/-- What `select_best` observes after running `parse_llm_response` on one
delivered content: the parse raised, returned `None`, or produced a dict
with a `name`; the dict's relevant fields are its name, url and
`one_sentence_intro_cn`. -/
structure Decision where
  name : String
  url : String
  intro : String
deriving Repr, DecidableEq

/-- Result of `parse_llm_response` (which may raise inside the `try`). -/
inductive ParseOutcome where
  | raised
  | nothing
  | pick (d : Decision)
deriving Repr

/-- Attempt loop of `LLMClient.select_best`.  The `_request` call sits
outside the `try`, so its `RuntimeError` propagates (`.error`).  A parsed
result that passes the quality gate returns immediately; an invalid or
unparseable response retries; the first substandard parse is retained as
`best_result` and, after the loop, returned with the degradation marker
applied. -/
def selectBestLoop (o : Oracle α) (parse : α → ParseOutcome) (maxRetries : Nat) :
    (k : Nat) → (best : Option Decision) → (attempts : Nat) → Except Nat (Option Decision × Nat)
  | k, best, 0 =>
    match best with
    | some b => .ok (some { b with intro := postprocessIntro b.intro }, k)
    | none => .ok (none, k)
  | k, best, attempts + 1 =>
    match request o maxRetries k with
    | .error k' => .error k'
    | .ok (content, k') =>
      match parse content with
      | .raised => selectBestLoop o parse maxRetries k' best attempts
      | .nothing => selectBestLoop o parse maxRetries k' best attempts
      | .pick d =>
        if isInvalidOutput d.intro then selectBestLoop o parse maxRetries k' best attempts
        else if !(needsRewrite d.intro) then .ok (some d, k')
        else selectBestLoop o parse maxRetries k' (some (best.getD d)) attempts

/-- `LLMClient.select_best`, abstracted over the oracle behaviour and the
(deterministic) parse of each delivered content.  `k` is the index of the
first round trip; the returned `Nat` is the index after the last one. -/
def selectBest (candidates : List Candidate) (o : Oracle α) (parse : α → ParseOutcome)
    (maxRetries k : Nat) : Except Nat (Option Decision × Nat) :=
  if candidates.isEmpty then .ok (none, k)
  else selectBestLoop o parse maxRetries k none maxRetries

/-- One element of the JSON array parsed inside `select_top_n`: either not
a dict, or a dict whose relevant fields are read with `.get` defaults
(`originField = none` models a missing `origin` key; an empty `name`
models a missing or falsy one). -/
inductive RespElem where
  | notDict
  | item (name url intro : String) (originField : Option String) (source : String)
deriving Repr, DecidableEq

/-- A validated item as appended to `valid_items` in `select_top_n`:
the intro has been post-processed and the origin defaulted. -/
structure ValidPick where
  name : String
  url : String
  intro : String
  origin : String
  source : String
deriving Repr, DecidableEq

/-- The origin defaulting of `select_top_n`:
`if "origin" not in item or item["origin"] not in ("CN", "Global"):
item["origin"] = "Global"`. -/
def normalizeOriginField : Option String → String
  | some o => if o == "CN" || o == "Global" then o else "Global"
  | none => "Global"

/-- The per-item validation loop of `select_top_n`: skip non-dicts and
items without a name, drop items whose intro is the `NULL` rejection
sentinel (`reason.strip().upper() == "NULL"`), mark the rest with the
degradation post-processing and default their origin. -/
def validItems : List RespElem → List ValidPick
  | [] => []
  | .notDict :: rest => validItems rest
  | .item name url intro originField source :: rest =>
    if name == "" then validItems rest
    else if PyStr.upper (PyStr.strip intro) == "NULL" then validItems rest
    else
      { name := name, url := url, intro := postprocessIntro intro,
        origin := normalizeOriginField originField, source := source } :: validItems rest

/-- Result of `_extract_json` on one delivered content in `select_top_n`:
raised, parsed to a non-list value, or parsed to a list of elements. -/
inductive TopNParse where
  | raised
  | notList
  | elems (xs : List RespElem)
deriving Repr

/-- Attempt loop of `LLMClient.select_top_n`.  `good_items` are the valid
items without a degradation prefix; reaching `min_items` good ones
returns the full validated set at once, otherwise the largest validated
set seen so far is retained and returned after the loop. -/
def selectTopNLoop (o : Oracle α) (extract : α → TopNParse) (maxRetries minItems : Nat) :
    (k : Nat) → (best : List ValidPick) → (attempts : Nat) → Except Nat (List ValidPick × Nat)
  | k, best, 0 => .ok (best, k)
  | k, best, attempts + 1 =>
    match request o maxRetries k with
    | .error k' => .error k'
    | .ok (content, k') =>
      match extract content with
      | .raised => selectTopNLoop o extract maxRetries minItems k' best attempts
      | .notList => selectTopNLoop o extract maxRetries minItems k' best attempts
      | .elems xs =>
        let valid := validItems xs
        let good := valid.filter (fun i => !(PyStr.startsWith i.intro "("))
        if minItems ≤ good.length then .ok (valid, k')
        else selectTopNLoop o extract maxRetries minItems k'
          (if best.length < valid.length then valid else best) attempts

/-- `LLMClient.select_top_n`, abstracted over the oracle behaviour and the
(deterministic) JSON extraction of each delivered content. -/
def selectTopN (candidates : List Candidate) (o : Oracle α) (extract : α → TopNParse)
    (maxRetries minItems k : Nat) : Except Nat (List ValidPick × Nat) :=
  if candidates.isEmpty then .ok ([], k)
  else selectTopNLoop o extract maxRetries minItems k [] maxRetries

/-- Round-trip index after a call returned or raised. -/
def counterAfter : Except Nat (β × Nat) → Nat
  | .error k => k
  | .ok (_, k) => k

/-- Whether a call returned rather than raised. -/
def returned : Except Nat (β × Nat) → Bool
  | .error _ => false
  | .ok _ => true

/-- An oracle that answers every round trip (possibly with malformed
content): no 429s and no transport failures. -/
def alwaysDelivers (o : Oracle α) : Prop :=
  ∀ i, ∃ c, o i = .success c

end LLM

namespace Curator

/-- The china-evidence token list of the origin downgrade block in
`Curator.curate` (`cn_evidence`). -/
def cnEvidence : List String :=
  ["北京", "上海", "深圳", "杭州", "中国", "china", "beijing", "shanghai",
   "shenzhen", "hangzhou", "icp", "备案", ".cn", "moonshot", "智谱", "百度"]

/-- The evidence-source lookup of the origin downgrade block: the first
balanced candidate whose lowercased name equals the pick's lowercased
name supplies `f"{tagline} {description}".lower()`; otherwise the
evidence text stays empty. -/
def lookupDesc (balanced : List Candidate) (pickName : String) : String :=
  match balanced.find? (fun c => PyStr.lower c.name == PyStr.lower pickName) with
  | some c => PyStr.lower (c.tagline ++ " " ++ c.description)
  | none => ""

/-- The origin downgrade policy applied per pick in `Curator.curate`: a
`"CN"` origin is kept only when the looked-up evidence text contains one
of the `cnEvidence` tokens, otherwise it is downgraded to `"Global"`;
every other origin value passes through. -/
def resolveOrigin (pick : LLM.ValidPick) (balanced : List Candidate) : String :=
  if pick.origin == "CN" then
    let desc := lookupDesc balanced pick.name
    if cnEvidence.any (fun ev => substrIn desc ev) then "CN" else "Global"
  else pick.origin

end Curator

namespace Main

/-- The configuration values `run_daily_job` reads before its credential
check (`load_config` output with defaults applied). -/
structure Config where
  llmApiKey : String
  llmBaseUrl : String
  llmModel : String
  webhookUrl : String
deriving Repr, DecidableEq

/-- The externally visible stages of `run_daily_job`, in program order.
Everything after the credential check is I/O orchestration; it is
abstracted to this ordered effect trace. -/
inductive Effect where
  | loadHistory
  | fetchTodayNews
  | curateRun
  | oracleCall
  | saveReport
  | saveHistory
  | sendWebhook
deriving Repr, DecidableEq

/-- `main.run_daily_job`: the API key is trimmed and, when empty, a
`RuntimeError` is raised (`.error`) before any stage runs; otherwise the
stages run in order. -/
def runDailyJob (cfg : Config) : Except String (List Effect) :=
  let apiKey := PyStr.strip cfg.llmApiKey
  if apiKey == "" then
    .error "Missing LLM API Key. Set DEEPSEEK_API_KEY or LLM_API_KEY environment variable."
  else
    .ok [.loadHistory, .fetchTodayNews, .curateRun, .oracleCall, .saveReport,
         .saveHistory, .sendWebhook]

end Main

/-- A minimal concrete candidate record, used for concrete evaluations. -/
def sampleCand (n u src : String) : Candidate :=
  { name := n, url := u, tagline := "", description := "", source := src }

/-- First record of the spec's session-dedup scenario. -/
def gammaA : Candidate := sampleCand "Gamma" "https://gamma.app" "Product Hunt"

/-- Second record of the spec's session-dedup scenario: same product, URL
carrying a query string, name cased differently. -/
def gammaB : Candidate := sampleCand "gamma" "https://gamma.app/?ref=x" "Toolify"

/-- Six concrete candidates, one per fetched source, all surviving
filtering, used to evaluate the slot allocation. -/
def sixSourceCands : List Candidate :=
  [sampleCand "Alpha" "https://alpha.example" "Product Hunt",
   sampleCand "Bravo" "https://bravo.example" "Toolify",
   sampleCand "Chess" "https://chess.example" "GitHub",
   sampleCand "Delta" "https://delta.example" "Hacker News",
   sampleCand "Echo" "https://echo.example" "TAAFT",
   sampleCand "Fox" "https://fox.example" "Futurepedia"]

/-
  Helper lemmas about the History Store.
-/

theorem normalizeUrl_empty : History.normalizeUrl "" = "" := by decide

theorem isDup_of_name_mem (st : History.HistoryState) (n u : String)
    (h1 : History.normalize n ≠ "") (h2 : History.normalize n ∈ st.nameSet) :
    History.isDuplicate st n u = true := by
  unfold History.isDuplicate
  simp [h1, h2]

theorem isDuplicate_iff (st : History.HistoryState) (n u : String) :
    History.isDuplicate st n u = true ↔
      (History.normalize n ≠ "" ∧ History.normalize n ∈ st.nameSet) ∨
      (u ≠ "" ∧ History.normalizeUrl u ≠ "" ∧ History.normalizeUrl u ∈ st.urlSet) := by
  unfold History.isDuplicate
  by_cases hu : u = ""
  · subst hu
    simp [normalizeUrl_empty]
  · simp only [beq_iff_eq, hu, if_false]
    by_cases hA : (History.normalize n != "" && st.nameSet.contains (History.normalize n)) = true
    · simp only [hA, if_true, true_iff]
      simp only [Bool.and_eq_true, bne_iff_ne, ne_eq] at hA
      exact Or.inl ⟨hA.1, by simpa using hA.2⟩
    · simp only [hA, if_false]
      simp only [Bool.and_eq_true, bne_iff_ne, ne_eq, not_and] at hA
      constructor
      · intro h
        by_cases hB : ((History.normalizeUrl u != "" && st.urlSet.contains (History.normalizeUrl u)) = true)
        · simp only [Bool.and_eq_true, bne_iff_ne, ne_eq] at hB
          exact Or.inr ⟨hu, hB.1, by simpa using hB.2⟩
        · simp [hB] at h
          exact Or.inr ⟨hu, h.1, h.2⟩
      · intro h
        rcases h with ⟨h1, h2⟩ | ⟨_, h1, h2⟩
        · exact absurd (by simpa using h2) (hA h1)
        · simp [h1, h2]

theorem isDup_of_url_mem (st : History.HistoryState) (n u : String)
    (h1 : History.normalizeUrl u ≠ "") (h2 : History.normalizeUrl u ∈ st.urlSet) :
    History.isDuplicate st n u = true := by
  have hu : u ≠ "" := by
    intro h
    subst h
    exact h1 normalizeUrl_empty
  exact (isDuplicate_iff st n u).mpr (Or.inr ⟨hu, h1, h2⟩)

theorem add_of_not_dup (st : History.HistoryState) (n u s d : String)
    (h : History.isDuplicate st n u = false) :
    History.add st n u s d =
      { history := st.history ++ [⟨n, u, s, d⟩]
        nameSet := if History.normalize n != "" then History.normalize n :: st.nameSet else st.nameSet
        urlSet := if History.normalizeUrl u != "" then History.normalizeUrl u :: st.urlSet else st.urlSet } := by
  unfold History.add
  simp [h]

theorem isDuplicate_mono (st st' : History.HistoryState) (n u : String)
    (hn : ∀ x ∈ st.nameSet, x ∈ st'.nameSet) (hu : ∀ x ∈ st.urlSet, x ∈ st'.urlSet)
    (h : History.isDuplicate st n u = true) :
    History.isDuplicate st' n u = true := by
  rcases (isDuplicate_iff st n u).mp h with ⟨h1, h2⟩ | ⟨h0, h1, h2⟩
  · exact (isDuplicate_iff st' n u).mpr (Or.inl ⟨h1, hn _ h2⟩)
  · exact (isDuplicate_iff st' n u).mpr (Or.inr ⟨h0, h1, hu _ h2⟩)

theorem add_nameSet_grows (st : History.HistoryState) (n u s d : String) :
    ∀ x ∈ st.nameSet, x ∈ (History.add st n u s d).nameSet := by
  intro x hx
  unfold History.add
  by_cases h : History.isDuplicate st n u = true
  · simp [h, hx]
  · simp only [Bool.not_eq_true] at h
    simp only [h]
    by_cases hn : (History.normalize n != "") = true <;> simp [hn, hx]

theorem add_urlSet_grows (st : History.HistoryState) (n u s d : String) :
    ∀ x ∈ st.urlSet, x ∈ (History.add st n u s d).urlSet := by
  intro x hx
  unfold History.add
  by_cases h : History.isDuplicate st n u = true
  · simp [h, hx]
  · simp only [Bool.not_eq_true] at h
    simp only [h]
    by_cases hn : (History.normalizeUrl u != "") = true <;> simp [hn, hx]

theorem loadFold_nameSet_mono (l : List History.HistoryEntry) :
    ∀ (st0 : History.HistoryState) (x : String), x ∈ st0.nameSet →
      x ∈ (l.foldl (fun st it =>
        let name := History.normalize it.name
        let url := History.normalizeUrl it.url
        { st with
          nameSet := if name != "" then name :: st.nameSet else st.nameSet
          urlSet := if url != "" then url :: st.urlSet else st.urlSet }) st0).nameSet := by
  induction l with
  | nil => intro st0 x hx; simpa using hx
  | cons e l ih =>
    intro st0 x hx
    simp only [List.foldl_cons]
    apply ih
    by_cases h : (History.normalize e.name != "") = true <;> simp [h, hx]

theorem loadFold_urlSet_mono (l : List History.HistoryEntry) :
    ∀ (st0 : History.HistoryState) (x : String), x ∈ st0.urlSet →
      x ∈ (l.foldl (fun st it =>
        let name := History.normalize it.name
        let url := History.normalizeUrl it.url
        { st with
          nameSet := if name != "" then name :: st.nameSet else st.nameSet
          urlSet := if url != "" then url :: st.urlSet else st.urlSet }) st0).urlSet := by
  induction l with
  | nil => intro st0 x hx; simpa using hx
  | cons e l ih =>
    intro st0 x hx
    simp only [List.foldl_cons]
    apply ih
    by_cases h : (History.normalizeUrl e.url != "") = true <;> simp [h, hx]

theorem loadFold_nameSet_of_mem (l : List History.HistoryEntry) :
    ∀ (st0 : History.HistoryState) (e : History.HistoryEntry), e ∈ l →
      History.normalize e.name ≠ "" →
      History.normalize e.name ∈ (l.foldl (fun st it =>
        let name := History.normalize it.name
        let url := History.normalizeUrl it.url
        { st with
          nameSet := if name != "" then name :: st.nameSet else st.nameSet
          urlSet := if url != "" then url :: st.urlSet else st.urlSet }) st0).nameSet := by
  induction l with
  | nil => intro st0 e he hne; cases he
  | cons f l ih =>
    intro st0 e he hne
    simp only [List.foldl_cons]
    rcases List.mem_cons.mp he with rfl | hmem
    · apply loadFold_nameSet_mono
      simp [hne]
    · exact ih _ e hmem hne

theorem loadFold_urlSet_of_mem (l : List History.HistoryEntry) :
    ∀ (st0 : History.HistoryState) (e : History.HistoryEntry), e ∈ l →
      History.normalizeUrl e.url ≠ "" →
      History.normalizeUrl e.url ∈ (l.foldl (fun st it =>
        let name := History.normalize it.name
        let url := History.normalizeUrl it.url
        { st with
          nameSet := if name != "" then name :: st.nameSet else st.nameSet
          urlSet := if url != "" then url :: st.urlSet else st.urlSet }) st0).urlSet := by
  induction l with
  | nil => intro st0 e he hne; cases he
  | cons f l ih =>
    intro st0 e he hne
    simp only [List.foldl_cons]
    rcases List.mem_cons.mp he with rfl | hmem
    · apply loadFold_urlSet_mono
      simp [hne]
    · exact ih _ e hmem hne

theorem loadState_name_mem (ledger : List History.HistoryEntry) (e : History.HistoryEntry)
    (he : e ∈ ledger) (hne : History.normalize e.name ≠ "") :
    History.normalize e.name ∈ (History.loadState ledger).nameSet := by
  unfold History.loadState
  exact loadFold_nameSet_of_mem ledger _ e he hne

theorem loadState_url_mem (ledger : List History.HistoryEntry) (e : History.HistoryEntry)
    (he : e ∈ ledger) (hne : History.normalizeUrl e.url ≠ "") :
    History.normalizeUrl e.url ∈ (History.loadState ledger).urlSet := by
  unfold History.loadState
  exact loadFold_urlSet_of_mem ledger _ e he hne

theorem prefilterValue_not_dup (hist : History.HistoryState) (cands : List Candidate)
    (c : Candidate) (h : c ∈ Curator.prefilterValue hist cands) :
    History.isDuplicate hist c.name c.url = false := by
  unfold Curator.prefilterValue at h
  have hk := (List.mem_filter.mp h).2
  unfold Curator.prefilterValueKeeps at hk
  simp only [Bool.and_eq_true, Bool.not_eq_true'] at hk
  exact hk.1.1.1.1.1

theorem isDuplicate_empty_key (name url : String) (hn : History.normalize name = "")
    (hu : History.normalizeUrl url = "") (st : History.HistoryState) :
    History.isDuplicate st name url = false := by
  cases hb : History.isDuplicate st name url with
  | false => rfl
  | true =>
    rcases (isDuplicate_iff st name url).mp hb with ⟨h1, _⟩ | ⟨_, h1, _⟩
    · exact (h1 hn).elim
    · exact (h1 hu).elim

theorem add_empty_key (st : History.HistoryState) (name url src date : String)
    (hn : History.normalize name = "") (hu : History.normalizeUrl url = "") :
    History.add st name url src date
      = { st with history := st.history ++ [⟨name, url, src, date⟩] } := by
  unfold History.add
  rw [isDuplicate_empty_key name url hn hu st]
  simp [hn, hu]

/-- C10: when both the normalized name and the normalized url of an
`add(name, url, ...)` call are empty, `is_duplicate` is false, so the
entry is appended to the ledger while neither lookup set changes; a
repeated identical call appends again, and `get_stats()["total"]` counts
every appended copy. -/
theorem c10_empty_identity_entries (st : History.HistoryState) (name url src date : String)
    (hn : History.normalize name = "") (hu : History.normalizeUrl url = "") :
    History.isDuplicate st name url = false ∧
    History.add st name url src date
      = { st with history := st.history ++ [⟨name, url, src, date⟩] } ∧
    History.add (History.add st name url src date) name url src date
      = { st with history := st.history ++ [⟨name, url, src, date⟩, ⟨name, url, src, date⟩] } ∧
    History.getStatsTotal (History.add st name url src date) = History.getStatsTotal st + 1 ∧
    History.getStatsTotal (History.add (History.add st name url src date) name url src date)
      = History.getStatsTotal st + 2 := by
  refine ⟨isDuplicate_empty_key name url hn hu st, add_empty_key st name url src date hn hu,
    ?_, ?_, ?_⟩
  · rw [add_empty_key st name url src date hn hu, add_empty_key _ name url src date hn hu]
    simp
  · rw [add_empty_key st name url src date hn hu]
    simp [History.getStatsTotal]
  · rw [add_empty_key st name url src date hn hu, add_empty_key _ name url src date hn hu]
    simp [History.getStatsTotal]

/-- Witness for `c10_empty_identity_entries` at the empty state and the
literally empty name and url. -/
theorem c10_empty_identity_entries_witness :
    History.normalize "" = "" ∧ History.normalizeUrl "" = "" ∧
    (History.isDuplicate ⟨[], [], []⟩ "" "" = false ∧
     History.add ⟨[], [], []⟩ "" "" "Product Hunt" "2025-10-12"
       = ⟨[⟨"", "", "Product Hunt", "2025-10-12"⟩], [], []⟩ ∧
     History.add (History.add ⟨[], [], []⟩ "" "" "Product Hunt" "2025-10-12") "" "" "Product Hunt" "2025-10-12"
       = ⟨[⟨"", "", "Product Hunt", "2025-10-12"⟩, ⟨"", "", "Product Hunt", "2025-10-12"⟩], [], []⟩ ∧
     History.getStatsTotal (History.add ⟨[], [], []⟩ "" "" "Product Hunt" "2025-10-12") = 1 ∧
     History.getStatsTotal
       (History.add (History.add ⟨[], [], []⟩ "" "" "Product Hunt" "2025-10-12") "" "" "Product Hunt" "2025-10-12")
       = 2) :=
  ⟨by decide, by decide,
   c10_empty_identity_entries ⟨[], [], []⟩ "" "" "Product Hunt" "2025-10-12" (by decide) (by decide)⟩

/-- C1 counterexample: the claim quantifies over every candidate recorded
via `HistoryManager.add`.  An `add("", "", ...)` call does record an entry
in the ledger, yet `is_duplicate("", "")` stays false afterwards, so the
claimed "is_duplicate returns true for every recorded candidate" fails at
the empty-identity candidate. -/
theorem c1_permanent_dedup_counterexample :
    (History.add ⟨[], [], []⟩ "" "" "Product Hunt" "2025-10-12").history
      = [⟨"", "", "Product Hunt", "2025-10-12"⟩] ∧
    History.isDuplicate (History.add ⟨[], [], []⟩ "" "" "Product Hunt" "2025-10-12") "" "" = false := by
  decide

/-- C1 (amended): for every candidate with a non-empty normalized name or
non-empty normalized url that `HistoryManager.add` actually records, (i)
`is_duplicate(name, url)` is true immediately after the add, (ii) the raw
entry is appended to the ledger, (iii) `is_duplicate` stays true across
any later adds, and (iv) in any later run whose ledger contains the
entry — regardless of elapsed time, no timestamp is consulted —
`is_duplicate` is true on the reloaded state and `_prefilter_value`
excludes every candidate carrying that name and url. -/
theorem c1_permanent_dedup_amended (st : History.HistoryState) (name url src date : String)
    (hid : History.normalize name ≠ "" ∨ History.normalizeUrl url ≠ "")
    (hnew : History.isDuplicate st name url = false) :
    History.isDuplicate (History.add st name url src date) name url = true ∧
    (History.add st name url src date).history = st.history ++ [⟨name, url, src, date⟩] ∧
    (∀ st' n2 u2 s2 d2, History.isDuplicate st' name url = true →
      History.isDuplicate (History.add st' n2 u2 s2 d2) name url = true) ∧
    (∀ ledger : List History.HistoryEntry,
      (⟨name, url, src, date⟩ : History.HistoryEntry) ∈ ledger →
      History.isDuplicate (History.loadState ledger) name url = true ∧
      ∀ cands c, c ∈ Curator.prefilterValue (History.loadState ledger) cands →
        ¬(c.name = name ∧ c.url = url)) := by
  refine ⟨?_, ?_, ?_, ?_⟩
  · rw [add_of_not_dup st name url src date hnew]
    rcases hid with hn | hu
    · exact isDup_of_name_mem _ name url hn (by simp [hn])
    · exact isDup_of_url_mem _ name url hu (by simp [hu])
  · rw [add_of_not_dup st name url src date hnew]
  · intro st' n2 u2 s2 d2 h
    exact isDuplicate_mono st' _ name url
      (add_nameSet_grows st' n2 u2 s2 d2) (add_urlSet_grows st' n2 u2 s2 d2) h
  · intro ledger hmem
    have hdup : History.isDuplicate (History.loadState ledger) name url = true := by
      rcases hid with hn | hu
      · exact isDup_of_name_mem _ name url hn (loadState_name_mem ledger _ hmem hn)
      · exact isDup_of_url_mem _ name url hu (loadState_url_mem ledger _ hmem hu)
    refine ⟨hdup, ?_⟩
    intro cands c hc ⟨hcn, hcu⟩
    have hfalse := prefilterValue_not_dup _ cands c hc
    rw [hcn, hcu, hdup] at hfalse
    cases hfalse

/-- Witness for `c1_permanent_dedup_amended` at a concrete fresh
candidate recorded into an empty store. -/
theorem c1_permanent_dedup_amended_witness :
    (History.normalize "Raycast" ≠ "" ∨ History.normalizeUrl "https://raycast.com" ≠ "") ∧
    History.isDuplicate ⟨[], [], []⟩ "Raycast" "https://raycast.com" = false ∧
    (History.isDuplicate
        (History.add ⟨[], [], []⟩ "Raycast" "https://raycast.com" "Product Hunt" "2025-10-12")
        "Raycast" "https://raycast.com" = true ∧
     (History.add ⟨[], [], []⟩ "Raycast" "https://raycast.com" "Product Hunt" "2025-10-12").history
       = [] ++ [⟨"Raycast", "https://raycast.com", "Product Hunt", "2025-10-12"⟩] ∧
     (∀ st' n2 u2 s2 d2,
        History.isDuplicate st' "Raycast" "https://raycast.com" = true →
        History.isDuplicate (History.add st' n2 u2 s2 d2) "Raycast" "https://raycast.com" = true) ∧
     (∀ ledger : List History.HistoryEntry,
        (⟨"Raycast", "https://raycast.com", "Product Hunt", "2025-10-12"⟩ : History.HistoryEntry) ∈ ledger →
        History.isDuplicate (History.loadState ledger) "Raycast" "https://raycast.com" = true ∧
        ∀ cands c, c ∈ Curator.prefilterValue (History.loadState ledger) cands →
          ¬(c.name = "Raycast" ∧ c.url = "https://raycast.com"))) :=
  ⟨Or.inl (by decide), by decide,
   c1_permanent_dedup_amended ⟨[], [], []⟩ "Raycast" "https://raycast.com" "Product Hunt" "2025-10-12"
     (Or.inl (by decide)) (by decide)⟩

/-- C7: identity symmetry of the History Store.  After a record
(n1, u1) is actually recorded by `add` (it was not already a duplicate),
any record whose normalized URL equals the first one's non-empty
normalized URL is reported duplicate regardless of its name, and any
record whose normalized name equals the first one's non-empty normalized
name is reported duplicate regardless of its (empty or different) URL. -/
theorem c7_identity_symmetry (st : History.HistoryState) (n1 u1 s d n2 u2 : String)
    (hrec : History.isDuplicate st n1 u1 = false) :
    (History.normalizeUrl u1 = History.normalizeUrl u2 → History.normalizeUrl u2 ≠ "" →
      History.isDuplicate (History.add st n1 u1 s d) n2 u2 = true) ∧
    (History.normalize n1 = History.normalize n2 → History.normalize n2 ≠ "" →
      History.isDuplicate (History.add st n1 u1 s d) n2 u2 = true) := by
  rw [add_of_not_dup st n1 u1 s d hrec]
  constructor
  · intro hequ hne
    apply isDup_of_url_mem _ n2 u2 hne
    rw [← hequ]
    have h1 : History.normalizeUrl u1 ≠ "" := hequ ▸ hne
    simp [h1]
  · intro heqn hne
    apply isDup_of_name_mem _ n2 u2 hne
    rw [← heqn]
    have h1 : History.normalize n1 ≠ "" := heqn ▸ hne
    simp [h1]

/-- Witness for `c7_identity_symmetry`: a record with a query-string URL
is matched by a clean URL (same normalized form, different name), and its
name is matched by a record with no URL at all. -/
theorem c7_identity_symmetry_witness :
    History.isDuplicate ⟨[], [], []⟩ "Foo" "https://x.com/?a=1" = false ∧
    ((History.normalizeUrl "https://x.com/?a=1" = History.normalizeUrl "https://X.com/" →
        History.normalizeUrl "https://X.com/" ≠ "" →
        History.isDuplicate (History.add ⟨[], [], []⟩ "Foo" "https://x.com/?a=1" "GitHub" "2025-10-12")
          "Bar" "https://X.com/" = true) ∧
     (History.normalize "Foo" = History.normalize "Bar" → History.normalize "Bar" ≠ "" →
        History.isDuplicate (History.add ⟨[], [], []⟩ "Foo" "https://x.com/?a=1" "GitHub" "2025-10-12")
          "Bar" "https://X.com/" = true)) ∧
    History.isDuplicate (History.add ⟨[], [], []⟩ "Foo" "https://x.com/?a=1" "GitHub" "2025-10-12")
      " foo " "" = true :=
  ⟨by decide,
   c7_identity_symmetry ⟨[], [], []⟩ "Foo" "https://x.com/?a=1" "GitHub" "2025-10-12" "Bar" "https://X.com/"
     (by decide),
   (c7_identity_symmetry ⟨[], [], []⟩ "Foo" "https://x.com/?a=1" "GitHub" "2025-10-12" " foo " ""
     (by decide)).2 (by decide) (by decide)⟩

/-- C9: an absent (empty after trimming) oracle API key makes
`run_daily_job` raise before any pipeline stage runs: the result is the
`RuntimeError` and no effect trace is produced. -/
theorem c9_missing_credential_fatal (cfg : Main.Config)
    (h : PyStr.strip cfg.llmApiKey = "") :
    Main.runDailyJob cfg
      = Except.error "Missing LLM API Key. Set DEEPSEEK_API_KEY or LLM_API_KEY environment variable." ∧
    ∀ effects, Main.runDailyJob cfg ≠ Except.ok effects := by
  constructor
  · unfold Main.runDailyJob
    simp [h]
  · intro effects
    unfold Main.runDailyJob
    simp [h]

/-- Witness for `c9_missing_credential_fatal` on a config whose key is
whitespace only. -/
theorem c9_missing_credential_fatal_witness :
    PyStr.strip "   " = "" ∧
    (Main.runDailyJob ⟨"   ", "https://api.deepseek.com", "deepseek-chat", ""⟩
       = Except.error "Missing LLM API Key. Set DEEPSEEK_API_KEY or LLM_API_KEY environment variable." ∧
     ∀ effects,
       Main.runDailyJob ⟨"   ", "https://api.deepseek.com", "deepseek-chat", ""⟩ ≠ Except.ok effects) :=
  ⟨by decide,
   c9_missing_credential_fatal ⟨"   ", "https://api.deepseek.com", "deepseek-chat", ""⟩ (by decide)⟩

/-- C4 counterexample: the two scenario records survive the Session
Deduplicator together — `cleaner.deduplicate` keys keep the URL query
string, so the keys differ and both records remain (the claim says
exactly one survives). -/
theorem c4_session_dedup_counterexample :
    (Cleaner.deduplicate [gammaA, gammaB]).length = 2 := by decide

/-- C4 (amended): feeding the two scenario records into the Session
Deduplicator leaves both: the session identity keys lowercase and trim
but do not strip the URL query string, in `cleaner.deduplicate` and in
`curate._dedupe` alike.  Only the permanent History Store's URL
normalization strips the query string, which equates the two URLs. -/
theorem c4_session_dedup_amended :
    Cleaner.deduplicate [gammaA, gammaB] = [gammaA, gammaB] ∧
    Curator.sessionDedupe [] true [gammaA, gammaB] = [gammaA, gammaB] ∧
    Cleaner.dedupKey gammaA ≠ Cleaner.dedupKey gammaB ∧
    Curator.sessionKey gammaA ≠ Curator.sessionKey gammaB ∧
    History.normalizeUrl gammaA.url = History.normalizeUrl gammaB.url := by
  decide

theorem dedupAux_idem (xs : List Candidate) : ∀ seen,
    Cleaner.dedupAux seen (Cleaner.dedupAux seen xs) = Cleaner.dedupAux seen xs := by
  induction xs with
  | nil => intro seen; rfl
  | cons x xs ih =>
    intro seen
    by_cases h : Cleaner.dedupKey x ∈ seen
    · simp only [Cleaner.dedupAux, if_pos h]
      exact ih seen
    · simp only [Cleaner.dedupAux, if_neg h]
      rw [ih (Cleaner.dedupKey x :: seen)]

theorem dedupAux_sublist (xs : List Candidate) : ∀ seen,
    List.Sublist (Cleaner.dedupAux seen xs) xs := by
  induction xs with
  | nil => intro seen; simp [Cleaner.dedupAux]
  | cons x xs ih =>
    intro seen
    by_cases h : Cleaner.dedupKey x ∈ seen
    · simp only [Cleaner.dedupAux, if_pos h]
      exact (ih seen).cons x
    · simp only [Cleaner.dedupAux, if_neg h]
      exact (ih _).cons₂ x

/-- C6: the Session Deduplicator is idempotent — running
`cleaner.deduplicate` on its own output returns that output unchanged —
and its output is a sublist of the input, so surviving elements keep
their input order (stable, first-occurrence dedup). -/
theorem c6_session_dedup_idempotence (xs : List Candidate) :
    Cleaner.deduplicate (Cleaner.deduplicate xs) = Cleaner.deduplicate xs ∧
    List.Sublist (Cleaner.deduplicate xs) xs :=
  ⟨dedupAux_idem xs [], dedupAux_sublist xs []⟩

theorem rrPick_append (b pool : List Candidate) :
    ∃ t, Curator.rrPick b pool = b ++ t := by
  unfold Curator.rrPick
  cases h : pool.find? (fun i => !(b.contains i)) with
  | none => exact ⟨[], by simp⟩
  | some item => exact ⟨[item], rfl⟩

theorem roundRobin_append (b : List Candidate) (p : Curator.SourcePools) :
    ∃ t, Curator.roundRobin b p = b ++ t := by
  simp only [Curator.roundRobin]
  obtain ⟨t1, h1⟩ := rrPick_append b p.taaft
  rw [h1]
  by_cases c1 : (b ++ t1).length ≥ 8
  · rw [if_pos c1]
    exact ⟨t1, rfl⟩
  · rw [if_neg c1]
    obtain ⟨t2, h2⟩ := rrPick_append (b ++ t1) p.productHunt
    rw [h2]
    by_cases c2 : (b ++ t1 ++ t2).length ≥ 8
    · rw [if_pos c2]
      exact ⟨t1 ++ t2, by simp⟩
    · rw [if_neg c2]
      obtain ⟨t3, h3⟩ := rrPick_append (b ++ t1 ++ t2) p.toolify
      rw [h3]
      by_cases c3 : (b ++ t1 ++ t2 ++ t3).length ≥ 8
      · rw [if_pos c3]
        exact ⟨t1 ++ (t2 ++ t3), by simp⟩
      · rw [if_neg c3]
        obtain ⟨t4, h4⟩ := rrPick_append (b ++ t1 ++ t2 ++ t3) p.hackerNews
        rw [h4]
        exact ⟨t1 ++ (t2 ++ (t3 ++ t4)), by simp⟩

theorem headSlot_length (l : List Candidate) : (Curator.headSlot l).length ≤ 1 := by
  cases l <;> simp [Curator.headSlot]

theorem forcedSlots_length (p : Curator.SourcePools) : (Curator.forcedSlots p).length ≤ 5 := by
  unfold Curator.forcedSlots
  have h1 := headSlot_length p.productHunt
  have h2 := headSlot_length p.toolify
  have h3 := headSlot_length (p.taaft ++ p.futurepedia)
  have h4 := headSlot_length p.hackerNews
  have h5 := headSlot_length p.github
  simp only [List.length_append]
  omega

theorem mem_balancedBatch_of_mem_forced (p : Curator.SourcePools) (x : Candidate)
    (hx : x ∈ Curator.forcedSlots p) : x ∈ Curator.balancedBatch p := by
  unfold Curator.balancedBatch
  obtain ⟨t, ht⟩ := roundRobin_append (Curator.forcedSlots p) p
  rw [ht, List.take_append_eq_append_take,
    List.take_of_length_le (le_trans (forcedSlots_length p) (by omega))]
  exact List.mem_append_left _ hx

theorem headSlot_nonempty (l : List Candidate) (h : l ≠ []) :
    ∃ x, Curator.headSlot l = [x] ∧ x ∈ l := by
  cases l with
  | nil => exact absurd rfl h
  | cons a t => exact ⟨a, rfl, List.mem_cons_self a t⟩

/-- C2 counterexample: with all six fetched sources non-empty (N = 6
distinct sources, batch cap 6 ≥ N), the slot-allocation of `curate`
produces a batch with no Futurepedia item: slot 3 takes the combined
TAAFT + Futurepedia pool's first element (a TAAFT item) and the
round-robin order never revisits Futurepedia, so the claimed "at least
one item from each non-empty source pool" fails. -/
theorem c2_balancer_coverage_counterexample :
    (Curator.groupPools sixSourceCands).productHunt ≠ [] ∧
    (Curator.groupPools sixSourceCands).toolify ≠ [] ∧
    (Curator.groupPools sixSourceCands).github ≠ [] ∧
    (Curator.groupPools sixSourceCands).hackerNews ≠ [] ∧
    (Curator.groupPools sixSourceCands).taaft ≠ [] ∧
    (Curator.groupPools sixSourceCands).futurepedia
      = [sampleCand "Fox" "https://fox.example" "Futurepedia"] ∧
    Curator.balancedBatch (Curator.groupPools sixSourceCands)
      = [sampleCand "Alpha" "https://alpha.example" "Product Hunt",
         sampleCand "Bravo" "https://bravo.example" "Toolify",
         sampleCand "Echo" "https://echo.example" "TAAFT",
         sampleCand "Delta" "https://delta.example" "Hacker News",
         sampleCand "Chess" "https://chess.example" "GitHub"] ∧
    (∀ c ∈ Curator.balancedBatch (Curator.groupPools sixSourceCands), c.source ≠ "Futurepedia") := by
  decide

/-- C2 (amended): the slot allocation guarantees representation exactly
for its five forced slots — a non-empty Product Hunt, Toolify, Hacker
News or GitHub pool each contributes an item to the balanced batch, and a
non-empty combined TAAFT + Futurepedia pool contributes one item from
that combined pool; Futurepedia alone (when TAAFT is non-empty) and the
Other pool have no guaranteed representation. -/
theorem c2_balancer_coverage_amended (p : Curator.SourcePools) :
    (p.productHunt ≠ [] → ∃ c ∈ Curator.balancedBatch p, c ∈ p.productHunt) ∧
    (p.toolify ≠ [] → ∃ c ∈ Curator.balancedBatch p, c ∈ p.toolify) ∧
    (p.taaft ++ p.futurepedia ≠ [] → ∃ c ∈ Curator.balancedBatch p, c ∈ p.taaft ++ p.futurepedia) ∧
    (p.hackerNews ≠ [] → ∃ c ∈ Curator.balancedBatch p, c ∈ p.hackerNews) ∧
    (p.github ≠ [] → ∃ c ∈ Curator.balancedBatch p, c ∈ p.github) := by
  refine ⟨fun h => ?_, fun h => ?_, fun h => ?_, fun h => ?_, fun h => ?_⟩ <;>
    obtain ⟨x, hs, hm⟩ := headSlot_nonempty _ h <;>
    refine ⟨x, mem_balancedBatch_of_mem_forced p x ?_, hm⟩ <;>
    simp [Curator.forcedSlots, hs]

/-- Witness for `c2_balancer_coverage_amended`: the Toolify pool of the
six-source example is represented in the balanced batch. -/
theorem c2_balancer_coverage_amended_witness :
    (Curator.groupPools sixSourceCands).toolify ≠ [] ∧
    ∃ c ∈ Curator.balancedBatch (Curator.groupPools sixSourceCands),
      c ∈ (Curator.groupPools sixSourceCands).toolify :=
  ⟨by decide, (c2_balancer_coverage_amended (Curator.groupPools sixSourceCands)).2.1 (by decide)⟩

theorem requestLoop_counter_le (o : LLM.Oracle α) : ∀ (attempts k : Nat),
    k ≤ LLM.counterAfter (LLM.requestLoop o k attempts) ∧
    LLM.counterAfter (LLM.requestLoop o k attempts) ≤ k + attempts := by
  intro attempts
  induction attempts with
  | zero => intro k; simp [LLM.requestLoop, LLM.counterAfter]
  | succ n ih =>
    intro k
    simp only [LLM.requestLoop]
    cases h : o k with
    | success c => simp [LLM.counterAfter]
    | rateLimited =>
      have := ih (k + 1)
      dsimp only
      exact ⟨by omega, by omega⟩
    | failure =>
      have := ih (k + 1)
      dsimp only
      exact ⟨by omega, by omega⟩

theorem request_error_le (o : LLM.Oracle α) (mr k k' : Nat)
    (h : LLM.request o mr k = .error k') : k' ≤ k + mr := by
  have := (requestLoop_counter_le o mr k).2
  rw [show LLM.requestLoop o k mr = LLM.request o mr k from rfl, h] at this
  simpa [LLM.counterAfter] using this

theorem request_ok_le (o : LLM.Oracle α) (mr k k' : Nat) (c : α)
    (h : LLM.request o mr k = .ok (c, k')) : k' ≤ k + mr := by
  have := (requestLoop_counter_le o mr k).2
  rw [show LLM.requestLoop o k mr = LLM.request o mr k from rfl, h] at this
  simpa [LLM.counterAfter] using this

theorem request_delivers (o : LLM.Oracle α) (hd : LLM.alwaysDelivers o) (mr k : Nat)
    (hmr : 0 < mr) : ∃ c, LLM.request o mr k = .ok (c, k + 1) := by
  obtain ⟨c, hc⟩ := hd k
  cases mr with
  | zero => omega
  | succ n =>
    refine ⟨c, ?_⟩
    unfold LLM.request
    simp only [LLM.requestLoop, hc]

theorem selectBestLoop_counter_le (o : LLM.Oracle α) (parse : α → LLM.ParseOutcome) (mr : Nat) :
    ∀ (attempts k : Nat) (best : Option LLM.Decision),
      LLM.counterAfter (LLM.selectBestLoop o parse mr k best attempts) ≤ k + attempts * mr := by
  intro attempts
  induction attempts with
  | zero => intro k best; cases best <;> simp [LLM.selectBestLoop, LLM.counterAfter]
  | succ n ih =>
    intro k best
    have hmul : (n + 1) * mr = n * mr + mr := by ring
    simp only [LLM.selectBestLoop]
    cases hreq : LLM.request o mr k with
    | error k' =>
      have hb := request_error_le o mr k k' hreq
      dsimp only
      simp only [LLM.counterAfter]
      omega
    | ok val =>
      obtain ⟨c, k'⟩ := val
      have hb := request_ok_le o mr k k' c hreq
      dsimp only
      cases hp : parse c with
      | raised => dsimp only; have := ih k' best; omega
      | nothing => dsimp only; have := ih k' best; omega
      | pick d =>
        dsimp only
        split
        · have := ih k' best; omega
        · split
          · simp only [LLM.counterAfter]; omega
          · have := ih k' (some (best.getD d)); omega

theorem selectBestLoop_delivers (o : LLM.Oracle α) (parse : α → LLM.ParseOutcome) (mr : Nat)
    (hd : LLM.alwaysDelivers o) (hmr : 0 < mr) :
    ∀ (attempts k : Nat) (best : Option LLM.Decision),
      LLM.returned (LLM.selectBestLoop o parse mr k best attempts) = true ∧
      LLM.counterAfter (LLM.selectBestLoop o parse mr k best attempts) ≤ k + attempts := by
  intro attempts
  induction attempts with
  | zero =>
    intro k best
    cases best <;> simp [LLM.selectBestLoop, LLM.returned, LLM.counterAfter]
  | succ n ih =>
    intro k best
    obtain ⟨c, hc⟩ := request_delivers o hd mr k hmr
    simp only [LLM.selectBestLoop, hc]
    cases hp : parse c with
    | raised => dsimp only; exact ⟨(ih (k + 1) best).1, by have := (ih (k + 1) best).2; omega⟩
    | nothing => dsimp only; exact ⟨(ih (k + 1) best).1, by have := (ih (k + 1) best).2; omega⟩
    | pick d =>
      dsimp only
      split
      · exact ⟨(ih (k + 1) best).1, by have := (ih (k + 1) best).2; omega⟩
      · split
        · exact ⟨rfl, by simp only [LLM.counterAfter]; omega⟩
        · exact ⟨(ih (k + 1) (some (best.getD d))).1,
            by have := (ih (k + 1) (some (best.getD d))).2; omega⟩

theorem selectTopNLoop_counter_le (o : LLM.Oracle α) (extract : α → LLM.TopNParse)
    (mr minI : Nat) :
    ∀ (attempts k : Nat) (best : List LLM.ValidPick),
      LLM.counterAfter (LLM.selectTopNLoop o extract mr minI k best attempts) ≤ k + attempts * mr := by
  intro attempts
  induction attempts with
  | zero => intro k best; simp [LLM.selectTopNLoop, LLM.counterAfter]
  | succ n ih =>
    intro k best
    have hmul : (n + 1) * mr = n * mr + mr := by ring
    simp only [LLM.selectTopNLoop]
    cases hreq : LLM.request o mr k with
    | error k' =>
      have hb := request_error_le o mr k k' hreq
      dsimp only
      simp only [LLM.counterAfter]
      omega
    | ok val =>
      obtain ⟨c, k'⟩ := val
      have hb := request_ok_le o mr k k' c hreq
      dsimp only
      cases hp : extract c with
      | raised => dsimp only; have := ih k' best; omega
      | notList => dsimp only; have := ih k' best; omega
      | elems xs =>
        dsimp only
        split
        · simp only [LLM.counterAfter]; omega
        · have := ih k' (if best.length < (LLM.validItems xs).length then LLM.validItems xs else best)
          omega

theorem selectTopNLoop_delivers (o : LLM.Oracle α) (extract : α → LLM.TopNParse)
    (mr minI : Nat) (hd : LLM.alwaysDelivers o) (hmr : 0 < mr) :
    ∀ (attempts k : Nat) (best : List LLM.ValidPick),
      LLM.returned (LLM.selectTopNLoop o extract mr minI k best attempts) = true ∧
      LLM.counterAfter (LLM.selectTopNLoop o extract mr minI k best attempts) ≤ k + attempts := by
  intro attempts
  induction attempts with
  | zero => intro k best; simp [LLM.selectTopNLoop, LLM.returned, LLM.counterAfter]
  | succ n ih =>
    intro k best
    obtain ⟨c, hc⟩ := request_delivers o hd mr k hmr
    simp only [LLM.selectTopNLoop, hc]
    cases hp : extract c with
    | raised => dsimp only; exact ⟨(ih (k + 1) best).1, by have := (ih (k + 1) best).2; omega⟩
    | notList => dsimp only; exact ⟨(ih (k + 1) best).1, by have := (ih (k + 1) best).2; omega⟩
    | elems xs =>
      dsimp only
      split
      · exact ⟨rfl, by simp only [LLM.counterAfter]; omega⟩
      · refine ⟨(ih (k + 1) _).1, ?_⟩
        have := (ih (k + 1) (if best.length < (LLM.validItems xs).length then LLM.validItems xs else best)).2
        omega

/-- C3 counterexample: the claim says `select_best` never raises and makes
at most `max_retries` round trips.  Under an oracle whose transport fails
on every call (a permitted oracle behaviour), `_request` exhausts its own
`max_retries` attempts and its `RuntimeError` — raised outside the `try`
of `select_best` — propagates out of `select_best` (modelled as
`Except.error`, carrying the round-trip count 3). -/
theorem c3_retry_termination_counterexample :
    LLM.selectBest [sampleCand "Alpha" "https://alpha.example" "Product Hunt"]
      (fun _ => (LLM.HttpOutcome.failure : LLM.HttpOutcome Unit))
      (fun _ => LLM.ParseOutcome.raised) 3 0
      = Except.error 3 := by
  rfl

/-- C3 (amended): `select_best` and `select_top_n` always terminate, after
at most `max_retries · max_retries` oracle round trips (each of the
`max_retries` attempt-loop iterations makes one `_request`, which itself
performs up to `max_retries` round trips).  When the oracle answers every
round trip — even with content that is malformed on every attempt — both
calls return normally (never raise) after at most `max_retries` round
trips.  Only when some `_request` exhausts all its transport attempts
does a `RuntimeError` escape to the caller. -/
theorem c3_retry_termination_amended {α : Type} (o : LLM.Oracle α)
    (parse : α → LLM.ParseOutcome) (extract : α → LLM.TopNParse)
    (cands : List Candidate) (mr minI k : Nat) :
    LLM.counterAfter (LLM.selectBest cands o parse mr k) ≤ k + mr * mr ∧
    LLM.counterAfter (LLM.selectTopN cands o extract mr minI k) ≤ k + mr * mr ∧
    (LLM.alwaysDelivers o → 0 < mr →
      LLM.returned (LLM.selectBest cands o parse mr k) = true ∧
      LLM.counterAfter (LLM.selectBest cands o parse mr k) ≤ k + mr ∧
      LLM.returned (LLM.selectTopN cands o extract mr minI k) = true ∧
      LLM.counterAfter (LLM.selectTopN cands o extract mr minI k) ≤ k + mr) := by
  unfold LLM.selectBest LLM.selectTopN
  by_cases hc : cands.isEmpty = true
  · simp only [hc, if_true]
    refine ⟨by simp [LLM.counterAfter], by simp [LLM.counterAfter], fun hd hmr => ?_⟩
    simp [LLM.returned, LLM.counterAfter]
  · simp only [hc, if_false]
    refine ⟨selectBestLoop_counter_le o parse mr mr k none,
      selectTopNLoop_counter_le o extract mr minI mr k [], fun hd hmr => ?_⟩
    obtain ⟨hb1, hb2⟩ := selectBestLoop_delivers o parse mr hd hmr mr k none
    obtain ⟨ht1, ht2⟩ := selectTopNLoop_delivers o extract mr minI hd hmr mr k []
    exact ⟨hb1, by simpa using hb2, ht1, by simpa using ht2⟩

/-- Witness for `c3_retry_termination_amended` on an oracle that answers
every round trip with content that never parses. -/
theorem c3_retry_termination_amended_witness :
    LLM.returned (LLM.selectBest [sampleCand "Alpha" "https://alpha.example" "Product Hunt"]
      (fun _ => (LLM.HttpOutcome.success 0 : LLM.HttpOutcome Nat))
      (fun _ => LLM.ParseOutcome.raised) 3 0) = true ∧
    LLM.counterAfter (LLM.selectBest [sampleCand "Alpha" "https://alpha.example" "Product Hunt"]
      (fun _ => (LLM.HttpOutcome.success 0 : LLM.HttpOutcome Nat))
      (fun _ => LLM.ParseOutcome.raised) 3 0) ≤ 0 + 3 ∧
    LLM.returned (LLM.selectTopN [sampleCand "Alpha" "https://alpha.example" "Product Hunt"]
      (fun _ => (LLM.HttpOutcome.success 0 : LLM.HttpOutcome Nat))
      (fun _ => LLM.TopNParse.raised) 3 3 0) = true ∧
    LLM.counterAfter (LLM.selectTopN [sampleCand "Alpha" "https://alpha.example" "Product Hunt"]
      (fun _ => (LLM.HttpOutcome.success 0 : LLM.HttpOutcome Nat))
      (fun _ => LLM.TopNParse.raised) 3 3 0) ≤ 0 + 3 :=
  (c3_retry_termination_amended (fun _ => (LLM.HttpOutcome.success 0 : LLM.HttpOutcome Nat))
    (fun _ => LLM.ParseOutcome.raised) (fun _ => LLM.TopNParse.raised)
    [sampleCand "Alpha" "https://alpha.example" "Product Hunt"] 3 3 0).2.2
    (fun i => ⟨0, rfl⟩) (by decide)

theorem validItems_append (a b : List LLM.RespElem) :
    LLM.validItems (a ++ b) = LLM.validItems a ++ LLM.validItems b := by
  induction a with
  | nil => rfl
  | cons x rest ih =>
    cases x with
    | notDict => simpa [LLM.validItems] using ih
    | item name url intro of src =>
      by_cases h1 : name = ""
      · simp [LLM.validItems, h1, ih]
      · by_cases h2 : PyStr.upper (PyStr.strip intro) = "NULL"
        · simp [LLM.validItems, h1, h2, ih]
        · simp [LLM.validItems, h1, h2, ih]

theorem validItems_sentinel_cons (name url intro : String) (of : Option String) (src : String)
    (rest : List LLM.RespElem) (h : PyStr.upper (PyStr.strip intro) = "NULL") :
    LLM.validItems (LLM.RespElem.item name url intro of src :: rest) = LLM.validItems rest := by
  by_cases h1 : name = "" <;> simp [LLM.validItems, h1, h]

theorem selectTopNLoop_ext (o : LLM.Oracle α) (extract extract' : α → LLM.TopNParse)
    (bad : LLM.RespElem) (mr minI : Nat)
    (hE : ∀ c, extract' c = match extract c with
      | .elems xs => .elems (bad :: xs)
      | t => t)
    (hv : ∀ xs, LLM.validItems (bad :: xs) = LLM.validItems xs) :
    ∀ (attempts k : Nat) (best : List LLM.ValidPick),
      LLM.selectTopNLoop o extract' mr minI k best attempts
        = LLM.selectTopNLoop o extract mr minI k best attempts := by
  intro attempts
  induction attempts with
  | zero => intro k best; rfl
  | succ n ih =>
    intro k best
    simp only [LLM.selectTopNLoop]
    cases hreq : LLM.request o mr k with
    | error k' => rfl
    | ok val =>
      obtain ⟨c, k'⟩ := val
      dsimp only
      rw [hE c]
      cases hp : extract c with
      | raised => dsimp only; exact ih k' best
      | notList => dsimp only; exact ih k' best
      | elems xs =>
        dsimp only
        rw [hv xs]
        split
        · rfl
        · exact ih k' _

/-- C8: in every `select_top_n` batch, a parsed response item whose
`one_sentence_intro_cn` equals the rejection sentinel `NULL` (after
trimming, case-insensitively) is dropped entirely: the validated output
is exactly what it would be had the item not been returned at all (never
a marked variant), and an oracle that additionally emits such an item in
every parsed list makes `select_top_n` return the identical result. -/
theorem c8_rejection_sentinel_removal :
    (∀ (pre post : List LLM.RespElem) (name url intro : String) (of : Option String) (src : String),
      PyStr.upper (PyStr.strip intro) = "NULL" →
      LLM.validItems (pre ++ LLM.RespElem.item name url intro of src :: post)
        = LLM.validItems (pre ++ post)) ∧
    (∀ (α : Type) (o : LLM.Oracle α) (extract extract' : α → LLM.TopNParse)
      (name url intro : String) (of : Option String) (src : String)
      (cands : List Candidate) (mr minI k : Nat),
      PyStr.upper (PyStr.strip intro) = "NULL" →
      (∀ c, extract' c = match extract c with
        | .elems xs => .elems (LLM.RespElem.item name url intro of src :: xs)
        | t => t) →
      LLM.selectTopN cands o extract' mr minI k = LLM.selectTopN cands o extract mr minI k) := by
  constructor
  · intro pre post name url intro of src h
    rw [validItems_append, validItems_append, validItems_sentinel_cons name url intro of src post h]
  · intro α o extract extract' name url intro of src cands mr minI k h hE
    unfold LLM.selectTopN
    by_cases hc : cands.isEmpty = true
    · simp [hc]
    · simp only [hc, if_false]
      exact selectTopNLoop_ext o extract extract' _ mr minI hE
        (fun xs => validItems_sentinel_cons name url intro of src xs h) mr k []

/-- Witness for `c8_rejection_sentinel_removal`: a concrete lowercase,
padded sentinel item vanishes from the validated output. -/
theorem c8_rejection_sentinel_removal_witness :
    PyStr.upper (PyStr.strip " null ") = "NULL" ∧
    LLM.validItems
        ([LLM.RespElem.item "Keep" "https://keep.example" "好用的中文介绍工具" (some "Global") "PH"]
          ++ LLM.RespElem.item "Drop" "https://drop.example" " null " (some "Global") "PH"
            :: [LLM.RespElem.notDict])
      = LLM.validItems
          ([LLM.RespElem.item "Keep" "https://keep.example" "好用的中文介绍工具" (some "Global") "PH"]
            ++ [LLM.RespElem.notDict]) :=
  ⟨by decide,
   (c8_rejection_sentinel_removal).1
     [LLM.RespElem.item "Keep" "https://keep.example" "好用的中文介绍工具" (some "Global") "PH"]
     [LLM.RespElem.notDict] "Drop" "https://drop.example" " null " (some "Global") "PH" (by decide)⟩

theorem validItems_origin (xs : List LLM.RespElem) (p : LLM.ValidPick)
    (hp : p ∈ LLM.validItems xs) : p.origin = "CN" ∨ p.origin = "Global" := by
  induction xs with
  | nil => cases hp
  | cons x rest ih =>
    cases x with
    | notDict => exact ih (by simpa [LLM.validItems] using hp)
    | item name url intro of src =>
      by_cases h1 : name = ""
      · exact ih (by simpa [LLM.validItems, h1] using hp)
      · by_cases h2 : PyStr.upper (PyStr.strip intro) = "NULL"
        · exact ih (by simpa [LLM.validItems, h1, h2] using hp)
        · have hp' : p = (⟨name, url, LLM.postprocessIntro intro,
              LLM.normalizeOriginField of, src⟩ : LLM.ValidPick)
              ∨ p ∈ LLM.validItems rest := by
            simpa [LLM.validItems, h1, h2] using hp
          rcases hp' with rfl | hmem
          · cases of with
            | none => exact Or.inr rfl
            | some o =>
              by_cases ho : (o == "CN" || o == "Global") = true
              · have : o = "CN" ∨ o = "Global" := by
                  simpa using ho
                simp only [LLM.normalizeOriginField, ho, if_true]
                exact this
              · simp only [LLM.normalizeOriginField, ho, if_false]
                exact Or.inr rfl
          · exact ih hmem

/-- C5: for every decision produced by `select_top_n` and post-processed
by `curate`, if the evidence text looked up from the balanced candidates
(the enriched `tagline description` of the name-matched candidate)
contains none of the explicit china-evidence tokens, the resolved origin
is `"Global"`, never `"CN"`; and a decision with a missing or invalid
`origin` field is defaulted to `"Global"` by `select_top_n`. -/
theorem c5_origin_conservatism (balanced : List Candidate) :
    (∀ (xs : List LLM.RespElem) (p : LLM.ValidPick), p ∈ LLM.validItems xs →
      Curator.cnEvidence.any (fun ev => substrIn (Curator.lookupDesc balanced p.name) ev) = false →
      Curator.resolveOrigin p balanced = "Global") ∧
    LLM.normalizeOriginField none = "Global" ∧
    (∀ s, s ≠ "CN" → s ≠ "Global" → LLM.normalizeOriginField (some s) = "Global") := by
  refine ⟨?_, rfl, ?_⟩
  · intro xs p hp hev
    rcases validItems_origin xs p hp with hcn | hgl
    · unfold Curator.resolveOrigin
      simp [hcn, hev]
    · unfold Curator.resolveOrigin
      simp [hgl]
  · intro s h1 h2
    simp [LLM.normalizeOriginField, h1, h2]

/-- Witness for `c5_origin_conservatism`: a pick the oracle marked `CN`
whose looked-up evidence text is empty is downgraded to `Global`. -/
theorem c5_origin_conservatism_witness :
    ({ name := "Foo", url := "https://foo.example", intro := "好用的中文介绍工具",
        origin := "CN", source := "PH" } : LLM.ValidPick)
      ∈ LLM.validItems [LLM.RespElem.item "Foo" "https://foo.example" "好用的中文介绍工具" (some "CN") "PH"] ∧
    Curator.cnEvidence.any (fun ev => substrIn (Curator.lookupDesc [] "Foo") ev) = false ∧
    Curator.resolveOrigin
      { name := "Foo", url := "https://foo.example", intro := "好用的中文介绍工具",
        origin := "CN", source := "PH" } [] = "Global" :=
  ⟨by decide, by decide,
   (c5_origin_conservatism []).1
     [LLM.RespElem.item "Foo" "https://foo.example" "好用的中文介绍工具" (some "CN") "PH"]
     { name := "Foo", url := "https://foo.example", intro := "好用的中文介绍工具",
       origin := "CN", source := "PH" }
     (by decide) (by decide)⟩
